import Mathlib

/-!
Verification of the CSV→H3 streaming pipeline (`addH3toCSV`).

The definitions below are a shallow embedding of the Go sources:

* `internal/csv/processor.go` — `Reader.detectColumns`, `Reader.findColumnByName`,
  `Reader.ReadRecord`, `StreamingProcessor.ProcessStream`, `NewWriter`,
  `Writer.WriteRecord`;
* `internal/config/config.go` — `Config.validateColumns`;
* `internal/validator/validator.go` — `CoordinateValidator.ValidateCoordinates`;
* `internal/filehandler/filehandler.go` — the output-file existence check.

Machine `float64` coordinates are modelled as `ℚ`; the Go standard-library
decimal parser `strconv.ParseFloat` is an external capability and is taken as
a parameter `pf : String → Option ℚ` wherever the code calls it.  The H3 index
generator (the `github.com/uber/h3-go` collaborator) is likewise a parameter.
Byte-level file input is modelled as a list of raw lines, each carrying its
parsed fields together with the number of input bytes the Go `csv.Reader`
consumes for it (`byteLen`), which is what `csv.Reader.InputOffset` reports.
-/

namespace AddH3

/-- ASCII whitespace, the relevant fragment of Go `unicode.IsSpace` for the
trimming done by `strings.TrimSpace`. -/
def isSpaceChar (c : Char) : Bool :=
  c = ' ' || c = '\t' || c = '\n' || c = '\r'

/-- Go `strings.TrimSpace`: drop whitespace from both ends. -/
def trimStr (s : String) : String :=
  String.mk (((s.data.dropWhile isSpaceChar).reverse.dropWhile isSpaceChar).reverse)

/-- Go `strings.ToLower` (ASCII-faithful). -/
def toLowerStr (s : String) : String :=
  String.mk (s.data.map Char.toLower)

/-- Case-insensitive string equality, modelling Go `strings.EqualFold`
(ASCII-faithful simple case folding). -/
def eqFold (a b : String) : Bool := toLowerStr a == toLowerStr b

/-- The processing configuration, from `csv.Config` / `config.Config`. -/
structure Config where
  inputFile : String := ""
  outputFile : String := ""
  latColumn : String := ""
  lngColumn : String := ""
  resolution : Int := 0
  hasHeaders : Bool := false
  overwrite : Bool := false
  verbose : Bool := false

/-- `Config.validateColumns` (internal/config/config.go, lines 88–106): empty
specifiers are rejected, then the two specifiers are compared after
`strings.ToLower(strings.TrimSpace(·))`; equality is the same-column error. -/
def validateColumnsCfg (c : Config) : Except String Unit :=
  if c.latColumn = "" then
    .error "latitude column name cannot be empty"
  else if c.lngColumn = "" then
    .error "longitude column name cannot be empty"
  else if toLowerStr (trimStr c.latColumn) = toLowerStr (trimStr c.lngColumn) then
    .error ("latitude and longitude columns cannot be the same: " ++ c.latColumn)
  else
    .ok ()

/-- Decimal digit run to its value; `none` on the empty run or a non-digit.
Models the digit loop of the Go standard library `strconv.Atoi` (an external
capability; integer overflow is out of scope). -/
def digitsVal? (cs : List Char) : Option Nat :=
  if cs.isEmpty then none
  else
    cs.foldl
      (fun acc c =>
        match acc with
        | none => none
        | some n => if c.isDigit then some (n * 10 + (c.toNat - 48)) else none)
      (some 0)

/-- Go `strconv.Atoi`: optional sign followed by decimal digits. -/
def atoi? (s : String) : Option Int :=
  match s.toList with
  | '+' :: rest => (digitsVal? rest).map (fun n => (n : Int))
  | '-' :: rest => (digitsVal? rest).map (fun n => -(n : Int))
  | cs => (digitsVal? cs).map (fun n => (n : Int))

/-- The fixed latitude alias list of `Reader.detectColumns`. -/
def latFallbacks : List String := ["lat", "latitude", "y"]

/-- The fixed longitude alias list of `Reader.detectColumns`. -/
def lngFallbacks : List String := ["lng", "lon", "longitude", "x"]

/-- `Reader.findColumnByName` (processor.go, lines 114–134): first an exact
case-insensitive match of the trimmed specifier against the trimmed headers
(skipped when the specifier is empty), then each fallback alias in order,
leftmost header winning; `-1` when nothing matches. -/
def findColumnByName (headers : List String) (specified : String)
    (fallbacks : List String) : Int :=
  let exact : Option Nat :=
    if specified ≠ "" then
      headers.findIdx? (fun h => eqFold (trimStr h) (trimStr specified))
    else none
  match exact with
  | some i => (i : Int)
  | none =>
    match fallbacks.findSome?
        (fun fb => headers.findIdx? (fun h => eqFold (trimStr h) fb)) with
    | some i => (i : Int)
    | none => -1

/-- `Reader.detectColumns` (processor.go, lines 87–111): with headers the two
specifiers are resolved by `findColumnByName`; without headers they must parse
as non-negative integers via `strconv.Atoi`.  A field left at `-1` is a
column-not-found error; no comparison between the two resolved indices is
performed. -/
def detectColumns (hasHeaders : Bool) (headers : List String) (c : Config) :
    Except String (Int × Int) :=
  let latIndex : Int :=
    if hasHeaders ∧ 0 < headers.length then
      findColumnByName headers c.latColumn latFallbacks
    else
      match atoi? c.latColumn with
      | some i => if 0 ≤ i then i else -1
      | none => -1
  let lngIndex : Int :=
    if hasHeaders ∧ 0 < headers.length then
      findColumnByName headers c.lngColumn lngFallbacks
    else
      match atoi? c.lngColumn with
      | some i => if 0 ≤ i then i else -1
      | none => -1
  if latIndex = -1 then
    .error ("latitude column not found: " ++ c.latColumn)
  else if lngIndex = -1 then
    .error ("longitude column not found: " ++ c.lngColumn)
  else
    .ok (latIndex, lngIndex)

/-- `csv.Record` (processor.go, lines 24–31).  Go zero values: coordinates `0`,
index `""`, `isValid` `false`. -/
structure Record where
  originalData : List String
  latitude : ℚ
  longitude : ℚ
  h3Index : String
  lineNumber : Nat
  isValid : Bool
deriving Repr, DecidableEq

/-- One raw input line as the Go `csv.Reader` delivers it: its parsed fields
and the number of input bytes consumed for it (the increment that
`csv.Reader.InputOffset` reports after reading it). -/
structure RawLine where
  fields : List String
  byteLen : Nat
deriving Repr, DecidableEq

/-- The mutable part of `csv.Reader`: the unread lines and the byte offset
`csv.Reader.InputOffset` would report. -/
structure RState where
  remaining : List RawLine
  offset : Nat
deriving Repr, DecidableEq

/-- The errors `Reader.ReadRecord` returns: end of input (`io.EOF`) or the
insufficient-columns row error (processor.go, lines 144–147). -/
inductive ReadErr where
  | eof
  | insufficientColumns (expected got : Nat)
deriving Repr, DecidableEq

/-- The body of `Reader.ReadRecord` after the raw row is obtained
(processor.go, lines 143–180), with the already-advanced input offset as the
recorded `LineNumber` (the Go code stores `int(r.csvReader.InputOffset())`).
`latIndex`/`lngIndex` are the non-negative indices `detectColumns` resolved.
`pf` is the external `strconv.ParseFloat` capability. -/
def parseRow (pf : String → Option ℚ) (latIndex lngIndex : Nat)
    (row : List String) (lineNo : Nat) : Except ReadErr Record :=
  if row.length ≤ latIndex ∨ row.length ≤ lngIndex then
    .error (.insufficientColumns (max latIndex lngIndex + 1) row.length)
  else
    let record0 : Record :=
      { originalData := row, latitude := 0, longitude := 0, h3Index := "",
        lineNumber := lineNo, isValid := false }
    let latStr := trimStr ((row.get? latIndex).getD "")
    let lngStr := trimStr ((row.get? lngIndex).getD "")
    if latStr = "" ∨ lngStr = "" then
      .ok record0
    else
      match pf latStr with
      | none => .ok record0
      | some lat =>
        match pf lngStr with
        | none => .ok record0
        | some lng =>
          .ok { record0 with latitude := lat, longitude := lng, isValid := true }

/-- `Reader.ReadRecord` (processor.go, lines 137–181): take the next raw row
(EOF when none is left), advance the input offset past it, and parse it. -/
def ReadRecord (pf : String → Option ℚ) (latIndex lngIndex : Nat)
    (s : RState) : RState × Except ReadErr Record :=
  match s.remaining with
  | [] => (s, .error .eof)
  | line :: rest =>
    let s' : RState := { remaining := rest, offset := s.offset + line.byteLen }
    (s', parseRow pf latIndex lngIndex line.fields s'.offset)

/-- `CoordinateValidator.ValidateCoordinates` (validator.go, lines 47–65):
latitude must be in `[-90, 90]` and longitude in `[-180, 180]`, both ends
inclusive. -/
def ValidateCoordinates (lat lng : ℚ) : Except String Unit :=
  if lat < -90 ∨ lat > 90 then
    .error "latitude is out of range [-90, 90]"
  else if lng < -180 ∨ lng > 180 then
    .error "longitude is out of range [-180, 180]"
  else
    .ok ()

/-- The per-record body of `StreamingProcessor.ProcessStream` (processor.go,
lines 270–302): on a reader-valid record run the validator (when present),
then the generator (when present); each failure clears `isValid` and adds one
to the error count; a generation success stores the token and adds one to the
valid count; a reader-invalid record only adds one to the error count.
Returns the record as forwarded to the sink together with the
`(validCount, errorCount)` increments. -/
def processOne (v? : Option (ℚ → ℚ → Except String Unit))
    (g? : Option (ℚ → ℚ → Int → Except String String)) (res : Int)
    (record : Record) : Record × Nat × Nat :=
  if record.isValid then
    let afterV : Record × Nat :=
      match v? with
      | some v =>
        match v record.latitude record.longitude with
        | .error _ => ({ record with isValid := false }, 1)
        | .ok _ => (record, 0)
      | none => (record, 0)
    if afterV.1.isValid then
      match g? with
      | some g =>
        match g afterV.1.latitude afterV.1.longitude res with
        | .error _ => ({ afterV.1 with isValid := false }, 0, afterV.2 + 1)
        | .ok tok => ({ afterV.1 with h3Index := tok }, 1, afterV.2)
      | none => (afterV.1, 0, afterV.2)
    else
      (afterV.1, 0, afterV.2)
  else
    (record, 0, 1)

/-- The counters of one `ProcessStream` run (processor.go, lines 250–252). -/
structure Tally where
  recordCount : Nat
  validCount : Nat
  errorCount : Nat
deriving Repr, DecidableEq

/-- The loop of `StreamingProcessor.ProcessStream` (processor.go, lines
254–308) over the reader state `(lines, off)`: EOF ends the run; a malformed
row adds one error and continues without reaching the sink; otherwise the
record is processed, the counters updated (`recordCount` once per record that
reaches the sink), and the sink called — a sink failure aborts the whole run. -/
def ProcessStreamAux {σ : Type} (pf : String → Option ℚ)
    (v? : Option (ℚ → ℚ → Except String Unit))
    (g? : Option (ℚ → ℚ → Int → Except String String)) (res : Int)
    (latIndex lngIndex : Nat) (sink : σ → Record → Except String σ) :
    List RawLine → Nat → σ → Tally → Except String (σ × Tally)
  | [], _, st, t => .ok (st, t)
  | line :: rest, off, st, t =>
    match parseRow pf latIndex lngIndex line.fields (off + line.byteLen) with
    | .error _ =>
      ProcessStreamAux pf v? g? res latIndex lngIndex sink rest
        (off + line.byteLen) st { t with errorCount := t.errorCount + 1 }
    | .ok record =>
      let step := processOne v? g? res record
      let t' : Tally :=
        { recordCount := t.recordCount + 1, validCount := t.validCount + step.2.1,
          errorCount := t.errorCount + step.2.2 }
      match sink st step.1 with
      | .error _ =>
        .error ("record handler failed at line " ++ toString step.1.lineNumber)
      | .ok st' =>
        ProcessStreamAux pf v? g? res latIndex lngIndex sink rest
          (off + line.byteLen) st' t'

/-- `StreamingProcessor.ProcessStream` (processor.go, lines 249–316) started
on a fresh reader position with all counters at zero. -/
def ProcessStream {σ : Type} (pf : String → Option ℚ)
    (v? : Option (ℚ → ℚ → Except String Unit))
    (g? : Option (ℚ → ℚ → Int → Except String String)) (res : Int)
    (latIndex lngIndex : Nat) (sink : σ → Record → Except String σ)
    (lines : List RawLine) (off : Nat) (st : σ) : Except String (σ × Tally) :=
  ProcessStreamAux pf v? g? res latIndex lngIndex sink lines off st
    ⟨0, 0, 0⟩

/-- The file system as the writer sees it: path ↦ rows currently stored.
`os.Stat` is existence of an entry, `os.Create` truncation to empty. -/
abbrev FS : Type := List (String × List (List String))

/-- `os.Stat` succeeding on `p`: the path is occupied. -/
def fsStat (fs : FS) (p : String) : Bool :=
  (List.lookup p fs).isSome

/-- Store `v` at path `p` (used for `os.Create`'s truncation and for flushes). -/
def fsSet (fs : FS) (p : String) (v : List (List String)) : FS :=
  (p, v) :: fs.filter (fun e => e.1 ≠ p)

/-- `csv.Writer` (processor.go, lines 346–351): the target path, the rows
written so far (header first when emitted), and the prepared output header. -/
structure Writer where
  path : String
  rows : List (List String)
  headers : Option (List String)
deriving Repr, DecidableEq

/-- `NewWriter` (processor.go, lines 354–391): the pre-write existence check
(`os.Stat` plus the overwrite flag), then `os.Create`, then the output header
`inputHeaders ++ ["h3_index"]` prepared whenever input headers exist and
written exactly once, before any data row, when the job is header-bearing. -/
def NewWriter (fs : FS) (filename : String) (inputHeaders : Option (List String))
    (config : Config) : FS × Except String Writer :=
  if fsStat fs filename ∧ config.overwrite = false then
    (fs, .error ("output file " ++ filename ++
      " already exists (use overwrite option to replace)"))
  else
    let fs' := fsSet fs filename []
    let headers : Option (List String) := inputHeaders.map (· ++ ["h3_index"])
    let w0 : Writer := { path := filename, rows := [], headers := headers }
    match headers with
    | some hs =>
      if config.hasHeaders then (fs', .ok { w0 with rows := [hs] })
      else (fs', .ok w0)
    | none => (fs', .ok w0)

/-- The data row `Writer.WriteRecord` emits for a record (processor.go, lines
399–408): the original fields verbatim, with the H3 index appended exactly
when the record is valid and its index is non-empty, the empty string
otherwise. -/
def writtenRow (r : Record) : List String :=
  r.originalData ++ [if r.isValid = true ∧ r.h3Index ≠ "" then r.h3Index else ""]

/-- `Writer.WriteRecord` (processor.go, lines 394–415): a nil record is an
error and writes nothing; otherwise the output row is appended. -/
def WriteRecord (w : Writer) (record : Option Record) : Except String Writer :=
  match record with
  | none => .error "record is nil"
  | some r => .ok { w with rows := w.rows ++ [writtenRow r] }

/-- The sink `StreamingProcessor.ProcessFile` installs (processor.go, lines
335–337): forward each record to `Writer.WriteRecord`. -/
def sinkW (w : Writer) (r : Record) : Except String Writer :=
  WriteRecord w (some r)

/-- `Writer.Flush` / `Writer.Close`: the buffered rows reach the file. -/
def flushWriter (fs : FS) (w : Writer) : FS :=
  fsSet fs w.path w.rows

/-- Whether an `Except` computation succeeded. -/
def isOkB {ε α : Type} : Except ε α → Bool
  | .ok _ => true
  | .error _ => false

/-- Each line paired with the input offset `csv.Reader.InputOffset` reports
right after reading it, starting from offset `off`. -/
def withOffsets : Nat → List RawLine → List (RawLine × Nat)
  | _, [] => []
  | off, l :: ls => (l, off + l.byteLen) :: withOffsets (off + l.byteLen) ls

/-- The data rows one `ProcessStream` run over `lines` hands to the writer, in
order: malformed lines contribute nothing, every other line contributes the
row `Writer.WriteRecord` serialises for its processed record. -/
def outRowsFrom (pf : String → Option ℚ) (v? : Option (ℚ → ℚ → Except String Unit))
    (g? : Option (ℚ → ℚ → Int → Except String String)) (res : Int)
    (latIndex lngIndex : Nat) : List RawLine → Nat → List (List String)
  | [], _ => []
  | l :: ls, off =>
    match parseRow pf latIndex lngIndex l.fields (off + l.byteLen) with
    | .error _ => outRowsFrom pf v? g? res latIndex lngIndex ls (off + l.byteLen)
    | .ok r =>
      writtenRow (processOne v? g? res r).1 ::
        outRowsFrom pf v? g? res latIndex lngIndex ls (off + l.byteLen)

/-- The counter state one `ProcessStream` run over `lines` leaves behind. -/
def tallyFrom (pf : String → Option ℚ) (v? : Option (ℚ → ℚ → Except String Unit))
    (g? : Option (ℚ → ℚ → Int → Except String String)) (res : Int)
    (latIndex lngIndex : Nat) : List RawLine → Nat → Tally → Tally
  | [], _, t => t
  | l :: ls, off, t =>
    match parseRow pf latIndex lngIndex l.fields (off + l.byteLen) with
    | .error _ =>
      tallyFrom pf v? g? res latIndex lngIndex ls (off + l.byteLen)
        { t with errorCount := t.errorCount + 1 }
    | .ok r =>
      let step := processOne v? g? res r
      tallyFrom pf v? g? res latIndex lngIndex ls (off + l.byteLen)
        ⟨t.recordCount + 1, t.validCount + step.2.1, t.errorCount + step.2.2⟩

/-- A line whose record reaches the sink fully valid: it parses, the reader
marks it coordinate-valid, the domain validator accepts the pair and the
generator produces a token.  These are exactly the `validCount` increments. -/
def validLineB (pf : String → Option ℚ) (v : ℚ → ℚ → Except String Unit)
    (g : ℚ → ℚ → Int → Except String String) (res : Int)
    (latIndex lngIndex : Nat) (lo : RawLine × Nat) : Bool :=
  match parseRow pf latIndex lngIndex lo.1.fields lo.2 with
  | .error _ => false
  | .ok r =>
    r.isValid && isOkB (v r.latitude r.longitude) &&
      isOkB (g r.latitude r.longitude res)

/-- A concrete stand-in for the external decimal-parser capability, used in
concrete evaluations. -/
def pfW : String → Option ℚ := fun s =>
  if s = "1" then some 1
  else if s = "2" then some 2
  else if s = "40.5" then some (81 / 2)
  else if s = "-74" then some (-74)
  else none

/-- A concrete generator succeeding with a fixed non-empty token, used in
concrete evaluations. -/
def genW : ℚ → ℚ → Int → Except String String := fun _ _ _ => .ok "8f2830828"

/-- A fresh writer over an empty target, used in concrete evaluations. -/
def wW : Writer := { path := "out.csv", rows := [], headers := none }

/-- The record `parseRow` produces for the row `["40.5", "-74"]` at offset 5,
used in concrete evaluations. -/
def rW : Record :=
  { originalData := ["40.5", "-74"], latitude := 81 / 2, longitude := -74,
    h3Index := "", lineNumber := 5, isValid := true }

/-- An occupied file system: the target path already holds a file. -/
def fsW : FS := [("out.csv", [["old"]])]

/-- `processOne` never touches the original fields of a record. -/
lemma processOne_originalData (v? : Option (ℚ → ℚ → Except String Unit))
    (g? : Option (ℚ → ℚ → Int → Except String String)) (res : Int) (r : Record) :
    (processOne v? g? res r).1.originalData = r.originalData := by
  unfold processOne
  cases hv : r.isValid
  · simp
  · simp only [if_pos rfl]
    cases v? with
    | none =>
      simp only
      cases g? with
      | none => simp [hv]
      | some g => cases hg : g r.latitude r.longitude res <;> simp [hv, hg]
    | some v =>
      cases hvv : v r.latitude r.longitude with
      | error e => simp [hvv]
      | ok u =>
        simp only [hvv]
        cases g? with
        | none => simp [hv]
        | some g => cases hg : g r.latitude r.longitude res <;> simp [hv, hg]

/-- A run of the `ProcessStream` loop with the writer sink: it always returns
`ok`, the writer accumulates exactly `outRowsFrom` after its existing rows,
and the counters end at `tallyFrom`. -/
lemma processStream_writer_run (pf : String → Option ℚ)
    (v? : Option (ℚ → ℚ → Except String Unit))
    (g? : Option (ℚ → ℚ → Int → Except String String)) (res : Int)
    (latIndex lngIndex : Nat) (lines : List RawLine) :
    ∀ (off : Nat) (w : Writer) (t : Tally),
      ProcessStreamAux pf v? g? res latIndex lngIndex sinkW lines off w t =
        .ok ({ w with
                rows := w.rows ++ outRowsFrom pf v? g? res latIndex lngIndex lines off },
             tallyFrom pf v? g? res latIndex lngIndex lines off t) := by
  induction lines with
  | nil => intro off w t; simp [ProcessStreamAux, outRowsFrom, tallyFrom]
  | cons l ls ih =>
    intro off w t
    simp only [ProcessStreamAux, outRowsFrom, tallyFrom]
    cases hp : parseRow pf latIndex lngIndex l.fields (off + l.byteLen) with
    | error e => simp only; exact ih (off + l.byteLen) w _
    | ok r =>
      simp only [sinkW, WriteRecord]
      rw [ih (off + l.byteLen) _ _]
      simp

/-- A row long enough to cover both resolved coordinate indices always parses
into a record carrying the row verbatim and the advanced offset. -/
lemma parseRow_ok_of_lt (pf : String → Option ℚ) (latIndex lngIndex : Nat)
    (row : List String) (n : Nat) (h1 : latIndex < row.length)
    (h2 : lngIndex < row.length) :
    ∃ r, parseRow pf latIndex lngIndex row n = .ok r ∧
      r.originalData = row ∧ r.lineNumber = n := by
  unfold parseRow
  rw [if_neg (by omega)]
  dsimp only
  split
  · exact ⟨_, rfl, rfl, rfl⟩
  · cases pf (trimStr ((row.get? latIndex).getD "")) with
    | none => exact ⟨_, rfl, rfl, rfl⟩
    | some lat =>
      cases pf (trimStr ((row.get? lngIndex).getD "")) with
      | none => exact ⟨_, rfl, rfl, rfl⟩
      | some lng => exact ⟨_, rfl, rfl, rfl⟩

/-- `parseRow` fails exactly on rows too short to cover both resolved
coordinate indices. -/
lemma parseRow_fails_iff (pf : String → Option ℚ) (latIndex lngIndex : Nat)
    (row : List String) (n : Nat) :
    isOkB (parseRow pf latIndex lngIndex row n) = false ↔
      (row.length ≤ latIndex ∨ row.length ≤ lngIndex) := by
  constructor
  · intro hfail
    by_contra hlen
    push_neg at hlen
    obtain ⟨r, hr, -, -⟩ :=
      parseRow_ok_of_lt pf latIndex lngIndex row n (by omega) (by omega)
    rw [hr] at hfail
    simp [isOkB] at hfail
  · intro hlen
    unfold parseRow
    rw [if_pos hlen]
    simp [isOkB]

/-- `isOkB` on a success. -/
lemma isOkB_ok {ε α : Type} (a : α) : isOkB (Except.ok a : Except ε α) = true := rfl

/-- `isOkB` on a failure. -/
lemma isOkB_error {ε α : Type} (e : ε) : isOkB (Except.error e : Except ε α) = false := rfl

/-- The counter increments `processOne` reports when both collaborators are
present: one valid record exactly when the reader-valid record passes the
validator and the generator, one error otherwise. -/
lemma processOne_deltas (v : ℚ → ℚ → Except String Unit)
    (g : ℚ → ℚ → Int → Except String String) (res : Int) (r : Record) :
    (processOne (some v) (some g) res r).2 =
      (if r.isValid && isOkB (v r.latitude r.longitude) &&
          isOkB (g r.latitude r.longitude res) then 1 else 0,
       if r.isValid && isOkB (v r.latitude r.longitude) &&
          isOkB (g r.latitude r.longitude res) then 0 else 1) := by
  unfold processOne
  cases hv : r.isValid
  · simp
  · simp only [if_pos rfl]
    cases hvv : v r.latitude r.longitude with
    | error e => simp [hvv, isOkB]
    | ok u =>
      simp only [hvv]
      cases hg : g r.latitude r.longitude res <;> simp [hv, hg, isOkB]

/-- Closed form of the counters after one run with both collaborators present:
`recordCount` counts the rows that parse (reach the sink), `validCount` the
fully valid ones, `errorCount` everything else (malformed rows included). -/
lemma tallyFrom_eq (pf : String → Option ℚ) (v : ℚ → ℚ → Except String Unit)
    (g : ℚ → ℚ → Int → Except String String) (res : Int)
    (latIndex lngIndex : Nat) (lines : List RawLine) :
    ∀ (off : Nat) (t : Tally),
      tallyFrom pf (some v) (some g) res latIndex lngIndex lines off t =
        ⟨t.recordCount + (withOffsets off lines).countP
            (fun lo => isOkB (parseRow pf latIndex lngIndex lo.1.fields lo.2)),
         t.validCount + (withOffsets off lines).countP
            (validLineB pf v g res latIndex lngIndex),
         t.errorCount + (withOffsets off lines).countP
            (fun lo => !(validLineB pf v g res latIndex lngIndex lo))⟩ := by
  induction lines with
  | nil => intro off t; simp [tallyFrom, withOffsets]
  | cons l ls ih =>
    intro off t
    simp only [tallyFrom, withOffsets, List.countP_cons]
    cases hp : parseRow pf latIndex lngIndex l.fields (off + l.byteLen) with
    | error e =>
      simp only
      rw [ih]
      simp only [validLineB, hp, isOkB_error]
      simp
      omega
    | ok r =>
      simp only
      rw [ih]
      simp only [validLineB, hp, isOkB_ok, processOne_deltas]
      rcases Bool.eq_false_or_eq_true
          (r.isValid && isOkB (v r.latitude r.longitude) &&
            isOkB (g r.latitude r.longitude res)) with hc | hc <;>
        simp [hc, Tally.mk.injEq] <;> omega

/-- When no line is malformed, every line contributes exactly one output row
whose original-fields part is that line, in input order. -/
lemma outRowsFrom_wf (pf : String → Option ℚ)
    (v? : Option (ℚ → ℚ → Except String Unit))
    (g? : Option (ℚ → ℚ → Int → Except String String)) (res : Int)
    (latIndex lngIndex : Nat) (lines : List RawLine) :
    ∀ off : Nat,
      (∀ l ∈ lines, latIndex < l.fields.length ∧ lngIndex < l.fields.length) →
      (outRowsFrom pf v? g? res latIndex lngIndex lines off).map List.dropLast =
        lines.map (·.fields) := by
  induction lines with
  | nil => intro off _; simp [outRowsFrom]
  | cons l ls ih =>
    intro off h
    obtain ⟨h1, h2⟩ := h l (by simp)
    obtain ⟨r, hp, hod, -⟩ :=
      parseRow_ok_of_lt pf latIndex lngIndex l.fields (off + l.byteLen) h1 h2
    simp only [outRowsFrom, hp, List.map_cons]
    congr 1
    · rw [writtenRow, List.dropLast_concat, processOne_originalData, hod]
    · exact ih (off + l.byteLen) (fun x hx => h x (by simp [hx]))

/-- When no line is malformed, `recordCount` ends at exactly the number of
input lines, whatever the collaborators are. -/
lemma tallyFrom_recordCount_wf (pf : String → Option ℚ)
    (v? : Option (ℚ → ℚ → Except String Unit))
    (g? : Option (ℚ → ℚ → Int → Except String String)) (res : Int)
    (latIndex lngIndex : Nat) (lines : List RawLine) :
    ∀ (off : Nat) (t : Tally),
      (∀ l ∈ lines, latIndex < l.fields.length ∧ lngIndex < l.fields.length) →
      (tallyFrom pf v? g? res latIndex lngIndex lines off t).recordCount =
        t.recordCount + lines.length := by
  induction lines with
  | nil => intro off t _; simp [tallyFrom]
  | cons l ls ih =>
    intro off t h
    obtain ⟨h1, h2⟩ := h l (by simp)
    obtain ⟨r, hp, -, -⟩ :=
      parseRow_ok_of_lt pf latIndex lngIndex l.fields (off + l.byteLen) h1 h2
    simp only [tallyFrom, hp]
    rw [ih (off + l.byteLen) _ (fun x hx => h x (by simp [hx]))]
    simp
    omega

/-- `CoordinateValidator.ValidateCoordinates` accepts exactly the pairs inside
the closed boxes `[-90, 90]` and `[-180, 180]`. -/
lemma validateCoordinates_ok_iff (lat lng : ℚ) :
    ValidateCoordinates lat lng = .ok () ↔
      (-90 ≤ lat ∧ lat ≤ 90 ∧ -180 ≤ lng ∧ lng ≤ 180) := by
  unfold ValidateCoordinates
  split
  · rename_i h
    constructor
    · intro hcon; cases hcon
    · intro hr; exfalso
      rcases h with h | h <;> [exact absurd hr.1 (by linarith); exact absurd hr.2.1 (by linarith)]
  · split
    · rename_i h1 h2
      constructor
      · intro hcon; cases hcon
      · intro hr; exfalso
        rcases h2 with h | h <;> [exact absurd hr.2.2.1 (by linarith); exact absurd hr.2.2.2 (by linarith)]
    · rename_i h1 h2
      push_neg at h1 h2
      constructor
      · intro _
        exact ⟨by linarith [h1.1], by linarith [h1.2], by linarith [h2.1], by linarith [h2.2]⟩
      · intro _; rfl

/-- C1 (row conservation): for every input whose data rows all have enough
fields to cover both resolved coordinate positions, one `ProcessStream` run
over the writer sink succeeds, forwards exactly one record per input row to
the sink (the total-record counter ends at the number of rows), and the
writer gains exactly one data row per input row, in input order, the k-th new
row carrying the k-th input row's fields. -/
theorem C1_row_conservation (pf : String → Option ℚ)
    (v? : Option (ℚ → ℚ → Except String Unit))
    (g? : Option (ℚ → ℚ → Int → Except String String)) (res : Int)
    (latIndex lngIndex : Nat) (lines : List RawLine) (off : Nat) (w : Writer)
    (h : ∀ l ∈ lines, latIndex < l.fields.length ∧ lngIndex < l.fields.length) :
    ∃ w' t',
      ProcessStream pf v? g? res latIndex lngIndex sinkW lines off w =
        .ok (w', t') ∧
      w'.rows.length = w.rows.length + lines.length ∧
      (w'.rows.drop w.rows.length).map List.dropLast = lines.map (·.fields) ∧
      t'.recordCount = lines.length := by
  have hmap := outRowsFrom_wf pf v? g? res latIndex lngIndex lines off h
  have hlen : (outRowsFrom pf v? g? res latIndex lngIndex lines off).length =
      lines.length := by
    have := congrArg List.length hmap
    simpa using this
  refine ⟨{ w with
      rows := w.rows ++ outRowsFrom pf v? g? res latIndex lngIndex lines off },
    tallyFrom pf v? g? res latIndex lngIndex lines off ⟨0, 0, 0⟩, ?_, ?_, ?_, ?_⟩
  · simp only [ProcessStream]
    exact processStream_writer_run pf v? g? res latIndex lngIndex lines off w ⟨0, 0, 0⟩
  · simp [hlen]
  · simp only [List.drop_left]
    exact hmap
  · rw [tallyFrom_recordCount_wf pf v? g? res latIndex lngIndex lines off ⟨0, 0, 0⟩ h]
    simp

/-- Witness for C1 at a concrete one-row input. -/
theorem C1_row_conservation_witness :
    ∃ w' t',
      ProcessStream pfW none none 8 0 1 sinkW [⟨["1", "2"], 4⟩] 0 wW =
        .ok (w', t') ∧
      w'.rows.length = wW.rows.length + 1 ∧
      (w'.rows.drop wW.rows.length).map List.dropLast = [["1", "2"]] ∧
      t'.recordCount = 1 :=
  C1_row_conservation pfW none none 8 0 1 [⟨["1", "2"], 4⟩] 0 wW (by decide)

/-- C2 (tally semantics): over one `ProcessStream` run with validator and
generator present, the total-record counter ends at exactly the number of
rows that parse and reach the sink (invalid-but-parsed rows included), the
valid counter at exactly the number of records that parsed, passed domain
validation and had a token generated, and the error counter at exactly the
number of remaining lines — malformed rows included there but excluded from
the total. -/
theorem C2_tally_semantics (pf : String → Option ℚ)
    (v : ℚ → ℚ → Except String Unit) (g : ℚ → ℚ → Int → Except String String)
    (res : Int) (latIndex lngIndex : Nat) (lines : List RawLine) (off : Nat)
    (w : Writer) :
    ∃ w' t',
      ProcessStream pf (some v) (some g) res latIndex lngIndex sinkW lines off w =
        .ok (w', t') ∧
      t'.recordCount = (withOffsets off lines).countP
          (fun lo => isOkB (parseRow pf latIndex lngIndex lo.1.fields lo.2)) ∧
      t'.validCount = (withOffsets off lines).countP
          (validLineB pf v g res latIndex lngIndex) ∧
      t'.errorCount = (withOffsets off lines).countP
          (fun lo => !(validLineB pf v g res latIndex lngIndex lo)) := by
  refine ⟨{ w with
      rows := w.rows ++ outRowsFrom pf (some v) (some g) res latIndex lngIndex lines off },
    tallyFrom pf (some v) (some g) res latIndex lngIndex lines off ⟨0, 0, 0⟩,
    ?_, ?_, ?_, ?_⟩
  · simp only [ProcessStream]
    exact processStream_writer_run pf (some v) (some g) res latIndex lngIndex lines off w ⟨0, 0, 0⟩
  · rw [tallyFrom_eq]
    simp
  · rw [tallyFrom_eq]
    simp
  · rw [tallyFrom_eq]
    simp

/-- C3 counterexample: with header `["x"]`, latitude specifier `"x"` and
longitude specifier `"foo"`, the latitude matches exactly and the longitude
falls back to the alias `"x"`, so both resolve to column 0 — yet
`detectColumns` succeeds, and the only same-column check in the code
(`Config.validateColumns`, which compares the specifier strings) passes too.
Setup therefore succeeds with `latitudeIndex = longitudeIndex`, refuting the
claimed post-condition. -/
theorem C3_same_column_counterexample :
    detectColumns true ["x"] { latColumn := "x", lngColumn := "foo" } = .ok (0, 0) ∧
    validateColumnsCfg { latColumn := "x", lngColumn := "foo" } = .ok () :=
  ⟨rfl, rfl⟩

/-- C3 amended: a same-column setup error is raised exactly when the two
specifier strings coincide after trimming and lowercasing (with empty
specifiers rejected separately); column resolution itself never compares the
resolved indices, so distinct specifiers can resolve to the same column (via
the alias fallback) and setup succeeds with `latitudeIndex = longitudeIndex`. -/
theorem C3_same_column_amended :
    (∀ c : Config, validateColumnsCfg c = .ok () ↔
        (c.latColumn ≠ "" ∧ c.lngColumn ≠ "" ∧
         toLowerStr (trimStr c.latColumn) ≠ toLowerStr (trimStr c.lngColumn))) ∧
    (detectColumns true ["x"] { latColumn := "x", lngColumn := "foo" } = .ok (0, 0) ∧
     validateColumnsCfg { latColumn := "x", lngColumn := "foo" } = .ok ()) := by
  refine ⟨?_, rfl, rfl⟩
  intro c
  unfold validateColumnsCfg
  split
  · rename_i h1
    simp [h1]
  · split
    · rename_i h1 h2
      simp [h1, h2]
    · split
      · rename_i h1 h2 h3
        simp [h1, h2, h3]
      · rename_i h1 h2 h3
        simp [h1, h2, h3]

/-- C4 (derived-field emptiness): for a record the Reader produced from a row
(so it reached the sink), the field `Writer.WriteRecord` appends after the
original fields is non-empty exactly when the coordinates parsed (the reader
marked the record valid), lie inside `[-90, 90] × [-180, 180]`, and the
generator produced a token — assuming the external generator never returns an
empty token on success (true of the H3 library's hex-string cells). -/
theorem C4_derived_field_emptiness (pf : String → Option ℚ)
    (latIndex lngIndex : Nat) (res : Int)
    (g : ℚ → ℚ → Int → Except String String)
    (hg : ∀ a b s, g a b res = .ok s → s ≠ "")
    (row : List String) (n : Nat) (r : Record)
    (hr : parseRow pf latIndex lngIndex row n = .ok r) :
    ∃ app,
      writtenRow (processOne (some ValidateCoordinates) (some g) res r).1 =
        r.originalData ++ [app] ∧
      (app ≠ "" ↔ (r.isValid = true ∧ -90 ≤ r.latitude ∧ r.latitude ≤ 90 ∧
        -180 ≤ r.longitude ∧ r.longitude ≤ 180 ∧
        ∃ tok, g r.latitude r.longitude res = .ok tok)) := by
  clear hr
  refine ⟨_, by rw [writtenRow, processOne_originalData], ?_⟩
  unfold processOne
  cases hv : r.isValid
  · simp [hv]
  · simp only [if_pos rfl]
    cases hvv : ValidateCoordinates r.latitude r.longitude with
    | error e =>
      have hrange : ¬(-90 ≤ r.latitude ∧ r.latitude ≤ 90 ∧
          -180 ≤ r.longitude ∧ r.longitude ≤ 180) := by
        intro hc
        have := (validateCoordinates_ok_iff r.latitude r.longitude).2 hc
        rw [hvv] at this
        cases this
      simp only [hvv]
      simp
      intro h1 h2 h3 h4
      exact absurd ⟨h1, h2, h3, h4⟩ hrange
    | ok u =>
      have hrange := (validateCoordinates_ok_iff r.latitude r.longitude).1 (by rw [hvv])
      simp only [hvv, hv]
      cases hgr : g r.latitude r.longitude res with
      | error e =>
        simp only [if_pos rfl]
        simp [hgr]
      | ok tok =>
        have htok : tok ≠ "" := hg _ _ tok hgr
        simp only [if_pos rfl]
        simp [htok, hv, hrange.1, hrange.2.1, hrange.2.2.1, hrange.2.2.2]

/-- Witness for C4 at a concrete parsed record. -/
theorem C4_derived_field_emptiness_witness :
    ∃ app,
      writtenRow (processOne (some ValidateCoordinates) (some genW) 8 rW).1 =
        rW.originalData ++ [app] ∧
      (app ≠ "" ↔ (rW.isValid = true ∧ -90 ≤ rW.latitude ∧ rW.latitude ≤ 90 ∧
        -180 ≤ rW.longitude ∧ rW.longitude ≤ 180 ∧
        ∃ tok, genW rW.latitude rW.longitude 8 = .ok tok)) :=
  C4_derived_field_emptiness pfW 0 1 8 genW
    (by intro a b s h; cases h; decide) ["40.5", "-74"] 5 rW (by rfl)

/-- C5 (fields verbatim): every record written, valid or not, produces exactly
its original fields, in order and position, with a single field appended at
the end. -/
theorem C5_fields_verbatim (w : Writer) (r : Record) :
    ∃ app,
      WriteRecord w (some r) =
        .ok { w with rows := w.rows ++ [r.originalData ++ [app]] } ∧
      (r.originalData ++ [app]).dropLast = r.originalData ∧
      (r.originalData ++ [app]).length = r.originalData.length + 1 := by
  exact ⟨_, rfl, by simp, by simp⟩

/-- C6 (header augmentation): when creating the writer succeeds and input
headers exist, a header-bearing job emits exactly the input header with the
single literal label `"h3_index"` appended, as the writer's first and only
row before any data row (one longer than the input header, whose prefix is
the input header); a job that is not header-bearing emits no header row. -/
theorem C6_header_augmentation (fs : FS) (filename : String)
    (inHeader : List String) (config : Config)
    (hok : fsStat fs filename = false ∨ config.overwrite = true) :
    ∃ fs' w,
      NewWriter fs filename (some inHeader) config = (fs', .ok w) ∧
      w.rows = (if config.hasHeaders then [inHeader ++ ["h3_index"]] else []) ∧
      (inHeader ++ ["h3_index"]).length = inHeader.length + 1 ∧
      (inHeader ++ ["h3_index"]).dropLast = inHeader := by
  unfold NewWriter
  have hcond : ¬(fsStat fs filename ∧ config.overwrite = false) := by
    rcases hok with h | h <;> simp [h]
  rw [if_neg hcond]
  cases hh : config.hasHeaders <;>
    exact ⟨_, _, rfl, by simp [hh], by simp, by simp⟩

/-- Witness for C6 on an empty file system with a three-column header. -/
theorem C6_header_augmentation_witness :
    ∃ fs' w,
      NewWriter [] "out.csv" (some ["name", "lat", "lng"]) { hasHeaders := true } =
        (fs', .ok w) ∧
      w.rows = (if ({ hasHeaders := true } : Config).hasHeaders then
          [["name", "lat", "lng"] ++ ["h3_index"]] else []) ∧
      (["name", "lat", "lng"] ++ ["h3_index"]).length = ["name", "lat", "lng"].length + 1 ∧
      (["name", "lat", "lng"] ++ ["h3_index"]).dropLast = ["name", "lat", "lng"] :=
  C6_header_augmentation [] "out.csv" ["name", "lat", "lng"] { hasHeaders := true }
    (Or.inl rfl)

/-- C7 (overwrite protection): when the target path is already occupied and
the overwrite flag is not set, `NewWriter` fails before creating anything —
the file system is returned unchanged (in particular the pre-existing file's
content at the target path is untouched) and no writer exists to receive
rows. -/
theorem C7_overwrite_protection (fs : FS) (filename : String)
    (inputHeaders : Option (List String)) (config : Config)
    (hex : fsStat fs filename = true) (hov : config.overwrite = false) :
    (NewWriter fs filename inputHeaders config).1 = fs ∧
      (∃ e, (NewWriter fs filename inputHeaders config).2 = .error e) ∧
      List.lookup filename (NewWriter fs filename inputHeaders config).1 =
        List.lookup filename fs := by
  unfold NewWriter
  rw [if_pos (by simp [hex, hov])]
  exact ⟨rfl, ⟨_, rfl⟩, rfl⟩

/-- Witness for C7 on an occupied target path. -/
theorem C7_overwrite_protection_witness :
    (NewWriter fsW "out.csv" none {}).1 = fsW ∧
      (∃ e, (NewWriter fsW "out.csv" none {}).2 = .error e) ∧
      List.lookup "out.csv" (NewWriter fsW "out.csv" none {}).1 =
        List.lookup "out.csv" fsW :=
  C7_overwrite_protection fsW "out.csv" none {} rfl rfl

/-- C8: the claim says `lineNumber` is the 1-based row position, but the code
stores `int(r.csvReader.InputOffset())`, the byte offset of the end of the
row just read.  For the headerless input whose single data row `a,1,2\n`
occupies 6 bytes, the first row read gets `lineNumber = 6`, not `1`. -/
theorem C8_line_number_is_byte_offset :
    (ReadRecord pfW 1 2 { remaining := [{ fields := ["a", "1", "2"], byteLen := 6 }], offset := 0 }).2 =
      .ok { originalData := ["a", "1", "2"], latitude := 1, longitude := 2,
            h3Index := "", lineNumber := 6, isValid := true } ∧
    (6 : Nat) ≠ 1 :=
  ⟨rfl, by decide⟩

/-- C9 (variable-width rows): a row is malformed exactly when its field count
fails to cover one of the two resolved coordinate indices — the header's
width plays no part (the Go reader is built with `FieldsPerRecord = -1`).
Consequently a 5-field row passes under a 3-column header, its output row has
6 fields, and the output header has 4: output data rows can differ in width
from the output header. -/
theorem C9_variable_width_rows :
    (∀ (pf : String → Option ℚ) (latIndex lngIndex : Nat) (row : List String) (n : Nat),
        isOkB (parseRow pf latIndex lngIndex row n) = false ↔
          (row.length ≤ latIndex ∨ row.length ≤ lngIndex)) ∧
    (∃ r, parseRow pfW 1 2 ["a", "1", "2", "x", "y"] 7 = .ok r ∧
        (writtenRow r).length = 6) ∧
    (∃ w, (NewWriter [] "out.csv" (some ["name", "lat", "lng"]) { hasHeaders := true }).2 =
        .ok w ∧
      w.rows = [["name", "lat", "lng", "h3_index"]] ∧
      ["name", "lat", "lng", "h3_index"].length = 4) :=
  ⟨parseRow_fails_iff, ⟨_, rfl, rfl⟩, ⟨_, rfl, rfl, rfl⟩⟩

/-- C10 (write-record cases): a nil record is rejected with an error and no
row is produced; for every non-nil record exactly one row is appended, the
original fields followed by the H3 index precisely when the record is valid
and its index non-empty, and by the empty string in every other case
(valid-with-empty-index and invalid-with-nonempty-index included). -/
theorem C10_write_record_cases (w : Writer) (r : Record) :
    WriteRecord w none = .error "record is nil" ∧
    WriteRecord w (some r) =
      .ok { w with rows := w.rows ++
        [r.originalData ++
          [if r.isValid = true ∧ r.h3Index ≠ "" then r.h3Index else ""]] } :=
  ⟨rfl, rfl⟩

end AddH3
